import Mathlib

/-!
Verification of the `display-error-chain` library (`src/lib.rs`).

The library exposes a single adapter, `DisplayErrorChain`, that wraps an
error value and renders the error together with its whole chain of causes.
We shallowly embed the code:

* An error-like value (Rust's `Error` trait view: a `Display` message plus
  an optional `source`) becomes the inductive `ErrorLike`: either a root
  error with no cause (`leaf`) or an error with a cause (`node`).  The
  trait's two accessors are `ErrorLike.msg` and `ErrorLike.source`; the
  inductive structure makes every cause chain finite and acyclic, which is
  exactly the traversal invariant the specification assumes.
* The output formatter (`fmt::Formatter`) becomes `Sink ε`: a string
  buffer together with a plan deciding, per write, whether the write
  succeeds or fails with an error value of type `ε`.  An exhausted plan
  means every further write succeeds, so `⟨w, []⟩` is an infallible sink
  (such as the `String` buffer used by `to_string`).
* `write!`/`writeln!` followed by the `?` operator becomes `Sink.write`
  combined with `andThen`, which short-circuits on the returned error.

`DisplayErrorChain.fmt` below is a direct translation of the
`fmt::Display` implementation (src/lib.rs lines 116-132), with
`fmtLoop` translating the `while let Some(cause) = source` loop, and
`DisplayErrorChain.to_string` the `.to_string()` call on the adapter.
-/

/-- An error-like value: its own display message and an optional cause
(the `source` of Rust's `Error` trait).  A `leaf` has no cause (its
`source` is `none`); a `node` has a cause. -/
inductive ErrorLike where
  | leaf (msg : String)
  | node (msg : String) (cause : ErrorLike)

/-- The error's own display message, which ignores its cause. -/
def ErrorLike.msg : ErrorLike → String
  | .leaf m => m
  | .node m _ => m

/-- The error's cause, if any: Rust's `Error::source`. -/
def ErrorLike.source : ErrorLike → Option ErrorLike
  | .leaf _ => none
  | .node _ c => some c

/-- The messages of the causes of an error, in chain order from the
outermost cause to the root cause.  The error's own message is excluded. -/
def ErrorLike.causeMsgs : ErrorLike → List String
  | .leaf _ => []
  | .node _ c => c.msg :: c.causeMsgs

/-- An output sink: the string written so far, plus a plan deciding for
each subsequent write whether it succeeds (`none`) or fails with a given
error value (`some e`).  Once the plan is exhausted every write succeeds,
so `⟨w, []⟩` models an infallible sink such as a `String` buffer. -/
structure Sink (ε : Type) where
  written : String
  plan : List (Option ε)

variable {ε : Type}

/-- Writing a chunk to the sink: consults (and consumes) the head of the
plan.  On success the chunk is appended to the output; on failure nothing
is appended and the planned error value is returned. -/
def Sink.write (sk : Sink ε) (s : String) : Sink ε × Option ε :=
  match sk.plan with
  | [] => (⟨sk.written ++ s, []⟩, none)
  | none :: rest => (⟨sk.written ++ s, rest⟩, none)
  | some e :: rest => (⟨sk.written, rest⟩, some e)

/-- Rust's `?` operator on a write result: on failure, return the error
value unchanged without running the continuation; on success, continue
with the sink returned by the write. -/
def andThen (r : Sink ε × Option ε) (f : Sink ε → Sink ε × Option ε) : Sink ε × Option ε :=
  match r with
  | (sk, some e) => (sk, some e)
  | (sk, none) => f sk

/-- The formatting adapter of src/lib.rs line 100: it holds one borrowed
reference to the error to display. -/
structure DisplayErrorChain where
  error : ErrorLike

/-- Constructor (src/lib.rs lines 107-109): stores the reference as is. -/
def DisplayErrorChain.new (e : ErrorLike) : DisplayErrorChain :=
  DisplayErrorChain.mk e

/-- The `while let Some(cause) = source` loop of src/lib.rs lines 121-130,
processing the current `cause` per iteration.  `cause_printed` tracks
whether the `Caused by:` header was already emitted.  Each iteration
performs a `writeln!` (the header plus a newline on the first iteration,
a bare newline afterwards, hence the chunk `"\nCaused by:\n"`), then
writes `  -> <cause message>`; either write short-circuits with the
sink's error value when it fails.  The loop then continues on
`cause.source()`: it stops when the cause is a root (`leaf`) error and
iterates on the nested cause otherwise. -/
def fmtLoop (cause_printed : Bool) : ErrorLike → Sink ε → Sink ε × Option ε
  | .leaf m, sk =>
    andThen (if !cause_printed then sk.write "\nCaused by:\n" else sk.write "\n") fun sk1 =>
      andThen (sk1.write ("  -> " ++ m)) fun sk2 => (sk2, none)
  | .node m c, sk =>
    andThen (if !cause_printed then sk.write "\nCaused by:\n" else sk.write "\n") fun sk1 =>
      andThen (sk1.write ("  -> " ++ m)) fun sk2 => fmtLoop true c sk2

/-- The `fmt::Display` implementation (src/lib.rs lines 116-132): write
the wrapped error's own message, then, if `self.0.source()` yields a
cause, run the cause loop on it.  A failing write short-circuits,
returning the sink's error value unmodified. -/
def DisplayErrorChain.fmt (c : DisplayErrorChain) (sk : Sink ε) : Sink ε × Option ε :=
  andThen (sk.write c.error.msg) fun sk1 =>
    match c.error.source with
    | none => (sk1, none)
    | some cause => fmtLoop false cause sk1

/-- Rendering to an owned string (Rust's `.to_string()` on the adapter):
formatting into a fresh infallible string buffer.  The sink error type
`Empty` records that this sink can never fail. -/
def DisplayErrorChain.to_string (c : DisplayErrorChain) : String :=
  (c.fmt (⟨"", []⟩ : Sink Empty)).1.written

/-- Concatenation of a list of strings, in order. -/
def joinAll : List String → String
  | [] => ""
  | c :: cs => c ++ joinAll cs

/-- The sequence of chunks the cause loop writes on a sink that never
fails, used to analyse `fmtLoop` uniformly. -/
def loopChunks (cause_printed : Bool) : ErrorLike → List String
  | .leaf m => [(if !cause_printed then "\nCaused by:\n" else "\n"), "  -> " ++ m]
  | .node m c =>
    (if !cause_printed then "\nCaused by:\n" else "\n") :: ("  -> " ++ m) :: loopChunks true c

/-- The full sequence of chunks `DisplayErrorChain.fmt` writes:
the error's own message followed by the cause loop's chunks. -/
def writeChunks : ErrorLike → List String
  | .leaf m => [m]
  | .node m c => m :: loopChunks false c

/-- Total number of write operations `DisplayErrorChain.fmt` attempts on a
sink that does not fail. -/
def numWrites (e : ErrorLike) : Nat := (writeChunks e).length

/-- Writing a list of chunks to a sink in order, stopping at the first
failing write and returning its error value. -/
def runWrites : Sink ε → List String → Sink ε × Option ε
  | sk, [] => (sk, none)
  | sk, c :: cs => andThen (sk.write c) fun sk1 => runWrites sk1 cs

/-- Modelled from the spec: the exact formatting contract of section 4.1,
"Zero causes: output = `<self-description>`; one or more causes: output =
`<self-description>\nCaused by:\n  -> <cause-1>\n  -> <cause-2>...`". -/
def specRender (m : String) (causes : List String) : String :=
  if causes = [] then m
  else m ++ "\nCaused by:" ++ joinAll (causes.map (fun c => "\n  -> " ++ c))

/-- Modelled from the spec: splitting a rendered output into its lines at
newline characters; this is the notion of "line" used by the testable
properties of section 8. -/
def splitLines : List Char → List (List Char)
  | [] => [[]]
  | c :: rest =>
    if c = '\n' then [] :: splitLines rest
    else
      match splitLines rest with
      | [] => [[c]]
      | l :: ls => (c :: l) :: ls

/-- Modelled from the spec: whether a line begins with the cause prefix
`  -> ` (two spaces, an arrow, one space). -/
def startsWithArrow : List Char → Bool
  | ' ' :: ' ' :: '-' :: '>' :: ' ' :: _ => true
  | _ => false

/-- One render pass over an explicit state: the wrapped error together
with the sink.  The pass constructs the adapter, formats into the sink,
and the pair records everything observable afterwards; because the
traversal only reads the error, the error component it leaves behind is
the one it received. -/
def renderStep (st : ErrorLike × Sink ε) : ErrorLike × Sink ε :=
  (st.1, ((DisplayErrorChain.new st.1).fmt st.2).1)

theorem andThen_ok (sk : Sink ε) (f : Sink ε → Sink ε × Option ε) :
    andThen (sk, none) f = f sk := rfl

theorem andThen_err (sk : Sink ε) (e : ε) (f : Sink ε → Sink ε × Option ε) :
    andThen (sk, some e) f = (sk, some e) := rfl

theorem write_ite (sk : Sink ε) (b : Bool) (s t : String) :
    (if b then sk.write s else sk.write t) = sk.write (if b then s else t) := by
  cases b <;> rfl

/-- The cause loop writes exactly the chunks `loopChunks` describes,
stopping at the first failing write. -/
theorem fmtLoop_eq_runWrites : ∀ (cause : ErrorLike) (cp : Bool) (sk : Sink ε),
    fmtLoop cp cause sk = runWrites sk (loopChunks cp cause)
  | .leaf m, cp, sk => by
    simp only [fmtLoop, loopChunks, runWrites, write_ite]
  | .node m c, cp, sk => by
    simp only [fmtLoop, loopChunks, runWrites, write_ite, fmtLoop_eq_runWrites c true]

/-- The whole `fmt` implementation writes exactly the chunks
`writeChunks` describes, stopping at the first failing write. -/
theorem fmt_eq_runWrites (c : DisplayErrorChain) (sk : Sink ε) :
    c.fmt sk = runWrites sk (writeChunks c.error) := by
  rcases c with ⟨e⟩
  cases e with
  | leaf m =>
    simp only [DisplayErrorChain.fmt, writeChunks, runWrites, ErrorLike.msg, ErrorLike.source]
  | node m c =>
    simp only [DisplayErrorChain.fmt, writeChunks, runWrites, ErrorLike.msg, ErrorLike.source,
      fmtLoop_eq_runWrites]

/-- On an infallible sink every write succeeds and the chunks are
appended in order. -/
theorem runWrites_nil_plan (w : String) : ∀ cs : List String,
    runWrites (⟨w, []⟩ : Sink ε) cs = (⟨w ++ joinAll cs, []⟩, none)
  | [] => by simp [runWrites, joinAll]
  | c :: cs => by
    simp only [runWrites, Sink.write, joinAll, andThen_ok]
    rw [runWrites_nil_plan (w ++ c) cs, String.append_assoc]

/-- A plan of `n + k` successes runs `n` chunks to completion, consuming
exactly `n` plan entries. -/
theorem runWrites_replicate (k : Nat) : ∀ (cs : List String) (w : String),
    runWrites (⟨w, List.replicate (cs.length + k) none⟩ : Sink ε) cs
      = (⟨w ++ joinAll cs, List.replicate k none⟩, none)
  | [], w => by simp [runWrites, joinAll]
  | c :: cs, w => by
    have h : (c :: cs).length + k = (cs.length + k) + 1 := by
      simp only [List.length_cons]; omega
    rw [h, List.replicate_succ]
    simp only [runWrites, Sink.write, joinAll, andThen_ok]
    rw [runWrites_replicate k cs (w ++ c), String.append_assoc]

/-- If the plan fails at the `k`-th write (zero-based) and at least `k + 1`
writes are attempted, the run stops there: it returns the planned error
value itself, exactly the first `k` chunks have been appended, and the
plan entries behind the failing one are left untouched. -/
theorem runWrites_fail (err : ε) (rest : List (Option ε)) :
    ∀ (k : Nat) (cs : List String) (w : String), k < cs.length →
      runWrites (⟨w, List.replicate k none ++ some err :: rest⟩ : Sink ε) cs
        = (⟨w ++ joinAll (cs.take k), rest⟩, some err)
  | k, [], w, h => absurd h (by simp)
  | 0, c :: cs, w, h => by
    simp [runWrites, Sink.write, joinAll, andThen_err]
  | k + 1, c :: cs, w, h => by
    rw [List.replicate_succ]
    simp only [runWrites, Sink.write, List.cons_append, List.take_succ_cons, joinAll, andThen_ok]
    rw [runWrites_fail err rest k cs (w ++ c) (by simpa using h), String.append_assoc]

/-- If every plan entry consulted within the run is a success, the run
returns no error (out-of-range entries default to success). -/
theorem runWrites_ok : ∀ (cs : List String) (plan : List (Option ε)) (w : String),
    (∀ i, i < cs.length → plan.getD i none = none) →
    (runWrites (⟨w, plan⟩ : Sink ε) cs).2 = none
  | [], _, _, _ => rfl
  | c :: cs, [], w, _ => by
    simp only [runWrites, Sink.write, andThen_ok]
    exact runWrites_ok cs [] (w ++ c) (fun i _ => by simp)
  | c :: cs, p :: rest, w, h => by
    have h0 : p = none := by simpa using h 0 (by simp)
    subst h0
    simp only [runWrites, Sink.write, andThen_ok]
    exact runWrites_ok cs rest (w ++ c)
      (fun i hi => by simpa using h (i + 1) (by simpa using hi))

/-- The concatenation of an initial segment of the chunks is a prefix of
the concatenation of all of them. -/
theorem joinAll_take_isPre : ∀ (k : Nat) (cs : List String),
    ∃ t, joinAll cs = joinAll (cs.take k) ++ t
  | 0, cs => ⟨joinAll cs, by simp [joinAll, String.empty_append]⟩
  | _ + 1, [] => ⟨"", by simp [joinAll]⟩
  | k + 1, c :: cs => by
    obtain ⟨t, ht⟩ := joinAll_take_isPre k cs
    exact ⟨t, by simp only [List.take_succ_cons, joinAll, ht, String.append_assoc]⟩

theorem newline_arrow (s : String) : "\n" ++ ("  -> " ++ s) = "\n  -> " ++ s := by
  rw [← String.append_assoc]
  rfl

theorem causedby_split (s : String) :
    "\nCaused by:\n" ++ ("  -> " ++ s) = "\nCaused by:" ++ ("\n  -> " ++ s) := by
  rw [← String.append_assoc, ← String.append_assoc]
  rfl

/-- Concatenating the cause loop's chunks (header already printed) yields
one `"\n  -> "`-prefixed segment per remaining cause message. -/
theorem joinAll_loopChunks_true : ∀ c : ErrorLike,
    joinAll (loopChunks true c)
      = joinAll ((c.msg :: c.causeMsgs).map (fun x => "\n  -> " ++ x))
  | .leaf m => by
    simp [loopChunks, joinAll, ErrorLike.msg, ErrorLike.causeMsgs, String.append_assoc,
      newline_arrow]
  | .node m c => by
    simp [loopChunks, joinAll, ErrorLike.msg, ErrorLike.causeMsgs, String.append_assoc,
      newline_arrow, joinAll_loopChunks_true c]

/-- Concatenating the cause loop's chunks (header not yet printed) yields
the `Caused by:` header followed by the cause segments. -/
theorem joinAll_loopChunks_false (c : ErrorLike) :
    joinAll (loopChunks false c)
      = "\nCaused by:" ++ joinAll ((c.msg :: c.causeMsgs).map (fun x => "\n  -> " ++ x)) := by
  cases c with
  | leaf m =>
    simp [loopChunks, joinAll, ErrorLike.msg, ErrorLike.causeMsgs, String.append_assoc,
      causedby_split]
  | node m c =>
    simp [loopChunks, joinAll, ErrorLike.msg, ErrorLike.causeMsgs, String.append_assoc,
      causedby_split, joinAll_loopChunks_true c]

/-- Concatenating all chunks of a full render gives exactly the output the
specification's formatting contract demands. -/
theorem joinAll_writeChunks (e : ErrorLike) :
    joinAll (writeChunks e) = specRender e.msg e.causeMsgs := by
  cases e with
  | leaf m =>
    simp [writeChunks, specRender, ErrorLike.msg, ErrorLike.causeMsgs, joinAll]
  | node m c =>
    simp [writeChunks, specRender, ErrorLike.msg, ErrorLike.causeMsgs, joinAll,
      joinAll_loopChunks_false c, String.append_assoc]

/-- Rendering to a string produces exactly the specification's formatting
contract. -/
theorem to_string_eq (e : ErrorLike) :
    (DisplayErrorChain.new e).to_string = specRender e.msg e.causeMsgs := by
  have h : (DisplayErrorChain.new e).error = e := rfl
  rw [DisplayErrorChain.to_string, fmt_eq_runWrites, h, runWrites_nil_plan]
  simp only [String.empty_append, joinAll_writeChunks]

/-- The number of chunks the cause loop writes: two per cause. -/
theorem loopChunks_length : ∀ (c : ErrorLike) (cp : Bool),
    (loopChunks cp c).length = 2 * (c.msg :: c.causeMsgs).length
  | .leaf m, cp => by simp [loopChunks, ErrorLike.causeMsgs]
  | .node m c, cp => by
    simp only [loopChunks, ErrorLike.causeMsgs, List.length_cons, loopChunks_length c true]
    ring

/-- The total number of writes of a render: one for the error's own
message plus two per cause. -/
theorem numWrites_eq (e : ErrorLike) : numWrites e = 1 + 2 * e.causeMsgs.length := by
  cases e with
  | leaf m => simp [numWrites, writeChunks, ErrorLike.causeMsgs]
  | node m c =>
    simp only [numWrites, writeChunks, ErrorLike.causeMsgs, List.length_cons,
      loopChunks_length c false]
    ring

theorem startsWithArrow_append (c : String) :
    startsWithArrow (("  -> " ++ c).data) = true := by
  have h : ("  -> " ++ c).data = ' ' :: ' ' :: '-' :: '>' :: ' ' :: c.data := by
    rw [String.data_append]
    rfl
  rw [h]
  rfl

/-- A newline-free list of characters forms a single line. -/
theorem splitLines_no_newline : ∀ l : List Char, '\n' ∉ l → splitLines l = [l]
  | [], _ => rfl
  | c :: rest, h => by
    have hc : ¬c = '\n' := fun hc => h (hc ▸ List.mem_cons_self c rest)
    have hr : '\n' ∉ rest := fun hr => h (List.mem_cons_of_mem c hr)
    simp only [splitLines, if_neg hc, splitLines_no_newline rest hr]

/-- Splitting a list that starts with a newline-free segment followed by a
newline: the segment becomes the first line. -/
theorem splitLines_append : ∀ (l r : List Char), '\n' ∉ l →
    splitLines (l ++ '\n' :: r) = l :: splitLines r
  | [], r, _ => by simp [splitLines]
  | c :: l, r, h => by
    have hc : ¬c = '\n' := fun hc => h (hc ▸ List.mem_cons_self c l)
    have hl : '\n' ∉ l := fun hl => h (List.mem_cons_of_mem c hl)
    simp only [List.cons_append, splitLines, if_neg hc, List.append_eq, splitLines_append l r hl]

/-- The lines of a newline-free prefix followed by the rendered cause
segments: the prefix, then one line `  -> <cause>` per cause. -/
theorem splitLines_causes : ∀ (causes : List String) (pre : List Char), '\n' ∉ pre →
    (∀ c ∈ causes, '\n' ∉ c.data) →
    splitLines (pre ++ (joinAll (causes.map (fun c => "\n  -> " ++ c))).data)
      = pre :: causes.map (fun c => ("  -> " ++ c).data)
  | [], pre, hpre, _ => by
    have h : (joinAll (List.map (fun c => "\n  -> " ++ c) [])).data = ([] : List Char) := rfl
    rw [h, List.append_nil]
    exact splitLines_no_newline pre hpre
  | c :: cs, pre, hpre, hc => by
    have hdata : ("\n  -> " ++ c ++ joinAll (cs.map (fun x => "\n  -> " ++ x))).data
        = '\n' :: (("  -> " ++ c).data ++ (joinAll (cs.map (fun x => "\n  -> " ++ x))).data) := by
      rw [String.append_assoc, String.data_append]
      rfl
    have harrow : '\n' ∉ ("  -> " ++ c).data := by
      rw [String.data_append]
      intro hmem
      rcases List.mem_append.1 hmem with hmem | hmem
      · simp at hmem
      · exact hc c (List.mem_cons_self c cs) hmem
    simp only [List.map, joinAll, hdata]
    rw [splitLines_append pre _ hpre,
      splitLines_causes cs _ harrow (fun x hx => hc x (List.mem_cons_of_mem c hx))]

/-- The lines of a full render with at least one cause and newline-free
messages: the error's message, the header `Caused by:`, then one line
`  -> <cause>` per cause, in chain order. -/
theorem to_string_lines (e : ErrorLike) (h1 : '\n' ∉ e.msg.data)
    (h2 : ∀ c ∈ e.causeMsgs, '\n' ∉ c.data) (h3 : e.causeMsgs ≠ []) :
    splitLines ((DisplayErrorChain.new e).to_string).data
      = e.msg.data :: ("Caused by:" : String).data
          :: e.causeMsgs.map (fun c => ("  -> " ++ c).data) := by
  rw [to_string_eq, specRender, if_neg h3]
  have hdata : (e.msg ++ "\nCaused by:"
        ++ joinAll (e.causeMsgs.map (fun c => "\n  -> " ++ c))).data
      = e.msg.data ++ '\n' :: (("Caused by:" : String).data
          ++ (joinAll (e.causeMsgs.map (fun c => "\n  -> " ++ c))).data) := by
    rw [String.data_append, String.data_append, List.append_assoc]
    rfl
  have hcb : '\n' ∉ ("Caused by:" : String).data := by decide
  rw [hdata, splitLines_append e.msg.data _ h1, splitLines_causes e.causeMsgs _ hcb h2]

/-- The optional last element of a non-empty list is its `getLastD` value
for any default. -/
theorem getLast?_cons_eq (d x : Char) : ∀ ds : List Char,
    (d :: ds).getLast? = some ((d :: ds).getLastD x)
  | [] => rfl
  | e :: es => by
    rw [List.getLast?_cons_cons, List.getLastD_cons]
    exact getLast?_cons_eq e d es

/-- The last character of any text ending in the rendered cause segments:
the last character of the last cause message, or the space of the last
`  -> ` marker when that message is empty. -/
theorem getLast_joinCauses : ∀ (cs : List String) (c : String) (pre : List Char),
    (pre ++ (joinAll ((c :: cs).map (fun x => "\n  -> " ++ x))).data).getLast?
      = some (((cs.getLastD c).data).getLastD ' ')
  | [], c, pre => by
    have h : (joinAll ([c].map (fun x => "\n  -> " ++ x))).data
        = '\n' :: ' ' :: ' ' :: '-' :: '>' :: ' ' :: c.data := by
      show (("\n  -> " ++ c) ++ "").data = _
      rw [String.append_empty]
      rfl
    rw [h, List.getLast?_append_cons]
    cases hc : c.data with
    | nil =>
      rw [show (([] : List String).getLastD c) = c from rfl, hc]
      decide
    | cons d ds =>
      have hsplit : ('\n' :: ' ' :: ' ' :: '-' :: '>' :: ' ' :: d :: ds : List Char)
          = ['\n', ' ', ' ', '-', '>', ' '] ++ d :: ds := rfl
      rw [hsplit, List.getLast?_append_cons,
        show (([] : List String).getLastD c) = c from rfl, hc, getLast?_cons_eq d ' ' ds]
  | c' :: cs', c, pre => by
    have h : (joinAll ((c :: c' :: cs').map (fun x => "\n  -> " ++ x))).data
        = ("\n  -> " ++ c).data
            ++ (joinAll ((c' :: cs').map (fun x => "\n  -> " ++ x))).data := by
      show (("\n  -> " ++ c) ++ joinAll _).data = _
      rw [String.data_append]
    rw [h, ← List.append_assoc, getLast_joinCauses cs' c' (pre ++ ("\n  -> " ++ c).data),
      List.getLastD_cons]

/-- C5 amended: provided the final emitted message of the chain (the root
cause's message, or the error's own self-description when there is no
cause) does not itself end in a newline character, the rendered output
does not end in a newline — the formatter appends no trailing newline of
its own. -/
theorem C5_no_trailing_newline (e : ErrorLike)
    (h : ((e.causeMsgs.getLastD e.msg).data).getLast? ≠ some '\n') :
    ((DisplayErrorChain.new e).to_string).data.getLast? ≠ some '\n' := by
  cases e with
  | leaf m =>
    rw [to_string_eq]
    simpa [specRender, ErrorLike.msg, ErrorLike.causeMsgs] using h
  | node m c =>
    rw [to_string_eq]
    have hm : (ErrorLike.node m c).msg = m := rfl
    have hcm : (ErrorLike.node m c).causeMsgs = c.msg :: c.causeMsgs := rfl
    rw [hm, hcm] at h ⊢
    rw [specRender, if_neg (by simp : ¬(c.msg :: c.causeMsgs = []))]
    have hd : ((m ++ "\nCaused by:")
          ++ joinAll ((c.msg :: c.causeMsgs).map (fun x => "\n  -> " ++ x))).data
        = (m ++ "\nCaused by:").data
            ++ (joinAll ((c.msg :: c.causeMsgs).map (fun x => "\n  -> " ++ x))).data :=
      String.data_append _ _
    rw [hd, getLast_joinCauses c.causeMsgs c.msg _]
    rw [List.getLastD_cons] at h
    cases hld : (c.causeMsgs.getLastD c.msg).data with
    | nil => decide
    | cons d ds =>
      rw [hld, getLast?_cons_eq d ' ' ds] at h
      exact h

/-- Rendering to a string concatenates exactly the chunk sequence of the
render. -/
theorem to_string_joinAll (e : ErrorLike) :
    (DisplayErrorChain.new e).to_string = joinAll (writeChunks e) := by
  have herr : (DisplayErrorChain.new e).error = e := rfl
  rw [DisplayErrorChain.to_string, fmt_eq_runWrites, herr, runWrites_nil_plan,
    String.empty_append]

/-- C1: for every error with a non-empty cause chain, rendering the
`DisplayErrorChain` wrapping it produces exactly the self-description,
then `\nCaused by:`, then for each cause in chain order the segment
`\n  -> ` followed by that cause's own self-description alone (no
recursive expansion of a cause's own cause inside its segment). -/
theorem C1_chain_render (e : ErrorLike) (h : e.causeMsgs ≠ []) :
    (DisplayErrorChain.new e).to_string
      = e.msg ++ "\nCaused by:" ++ joinAll (e.causeMsgs.map (fun c => "\n  -> " ++ c)) := by
  rw [to_string_eq, specRender, if_neg h]

theorem C1_chain_render_witness :
    (ErrorLike.node "top" (ErrorLike.leaf "boom")).causeMsgs ≠ []
      ∧ (DisplayErrorChain.new (ErrorLike.node "top" (ErrorLike.leaf "boom"))).to_string
          = (ErrorLike.node "top" (ErrorLike.leaf "boom")).msg ++ "\nCaused by:"
              ++ joinAll ((ErrorLike.node "top" (ErrorLike.leaf "boom")).causeMsgs.map
                  (fun c => "\n  -> " ++ c)) :=
  ⟨by decide, C1_chain_render (ErrorLike.node "top" (ErrorLike.leaf "boom")) (by decide)⟩

/-- C2: for every error whose cause accessor returns nothing, rendering
the `DisplayErrorChain` wrapping it produces exactly the error's own
self-description, nothing more. -/
theorem C2_no_cause_render (e : ErrorLike) (h : e.source = none) :
    (DisplayErrorChain.new e).to_string = e.msg := by
  cases e with
  | leaf m => exact String.empty_append m
  | node m c => exact absurd h (by simp [ErrorLike.source])

theorem C2_no_cause_render_witness :
    (ErrorLike.leaf "No cause").source = none
      ∧ (DisplayErrorChain.new (ErrorLike.leaf "No cause")).to_string
          = (ErrorLike.leaf "No cause").msg :=
  ⟨rfl, C2_no_cause_render (ErrorLike.leaf "No cause") rfl⟩

/-- C6: the concrete three-level scenario: wrapping the error
`top level`, caused by `mid level`, caused by `low level`, renders to
exactly `top level\nCaused by:\n  -> mid level\n  -> low level`. -/
theorem C6_three_level_scenario :
    (DisplayErrorChain.new (ErrorLike.node "top level"
        (ErrorLike.node "mid level" (ErrorLike.leaf "low level")))).to_string
      = "top level\nCaused by:\n  -> mid level\n  -> low level" := rfl

/-- C7: rendering is deterministic and stateless: whatever the sink
already contains, a render appends exactly the same string
(`to_string`), so two successive renders through the same adapter, or
through two adapters wrapping the same error, produce identical output
both times. -/
theorem C7_deterministic (e : ErrorLike) (w : String) :
    ((DisplayErrorChain.new e).fmt (⟨w, []⟩ : Sink Empty)).1.written
        = w ++ (DisplayErrorChain.new e).to_string
      ∧ ((DisplayErrorChain.new e).fmt
            (((DisplayErrorChain.new e).fmt (⟨w, []⟩ : Sink Empty)).1)).1.written
          = w ++ (DisplayErrorChain.new e).to_string ++ (DisplayErrorChain.new e).to_string := by
  have herr : (DisplayErrorChain.new e).error = e := rfl
  have hout : ∀ w' : String, ((DisplayErrorChain.new e).fmt (⟨w', []⟩ : Sink Empty)).1
      = ⟨w' ++ (DisplayErrorChain.new e).to_string, []⟩ := by
    intro w'
    rw [fmt_eq_runWrites, herr, runWrites_nil_plan, to_string_joinAll]
  refine ⟨by rw [hout w], ?_⟩
  rw [hout w, hout (w ++ (DisplayErrorChain.new e).to_string)]

/-- C8: on a sink that does not fail, the render terminates after exactly
`1 + 2 * n` writes for a chain of `n` causes: each cause is visited
exactly once (contributing its two writes) and the traversal consumes
nothing beyond that bound. -/
theorem C8_bounded_traversal (e : ErrorLike) (w : String) (k : Nat) :
    numWrites e = 1 + 2 * e.causeMsgs.length
      ∧ ((DisplayErrorChain.new e).fmt
            (⟨w, List.replicate (numWrites e + k) none⟩ : Sink Unit)).1.plan
          = List.replicate k none
      ∧ ((DisplayErrorChain.new e).fmt
            (⟨w, List.replicate (numWrites e + k) none⟩ : Sink Unit)).2 = none := by
  have herr : (DisplayErrorChain.new e).error = e := rfl
  have hrun : ((DisplayErrorChain.new e).fmt
        (⟨w, List.replicate (numWrites e + k) none⟩ : Sink Unit))
      = (⟨w ++ joinAll (writeChunks e), List.replicate k none⟩, none) := by
    rw [fmt_eq_runWrites, herr]
    exact runWrites_replicate k (writeChunks e) w
  exact ⟨numWrites_eq e, by rw [hrun], by rw [hrun]⟩

/-- C9: neither construction nor rendering mutates the wrapped error:
`new` stores the error unchanged, and after any number of render passes
over an explicit (error, sink) state the error component is still the
original error — the traversal is read-only. -/
theorem C9_read_only (e : ErrorLike) (sk : Sink Unit) (n : Nat) :
    (DisplayErrorChain.new e).error = e ∧ (renderStep^[n] (e, sk)).1 = e := by
  refine ⟨rfl, ?_⟩
  induction n generalizing sk with
  | zero => rfl
  | succ n ih =>
    rw [Function.iterate_succ_apply]
    exact ih ((DisplayErrorChain.new e).fmt sk).1

/-- C4: rendering fails exactly when a write to the caller-supplied sink
fails: if every plan entry the render consults is a success, the render
returns no error (the formatting logic introduces no failure of its own),
and if the sink fails at any write within the render, the render returns
precisely that planned error value, unmodified. -/
theorem C4_failure_passthrough (e : ErrorLike) (w : String) :
    (∀ plan : List (Option ε), (∀ i, i < numWrites e → plan.getD i none = none) →
      ((DisplayErrorChain.new e).fmt (⟨w, plan⟩ : Sink ε)).2 = none)
    ∧ (∀ (k : Nat) (err : ε) (rest : List (Option ε)), k < numWrites e →
        ((DisplayErrorChain.new e).fmt
            (⟨w, List.replicate k none ++ some err :: rest⟩ : Sink ε)).2 = some err) := by
  have herr : (DisplayErrorChain.new e).error = e := rfl
  constructor
  · intro plan hplan
    rw [fmt_eq_runWrites, herr]
    exact runWrites_ok (writeChunks e) plan w hplan
  · intro k err rest hk
    rw [fmt_eq_runWrites, herr, runWrites_fail err rest k (writeChunks e) w hk]

theorem C4_failure_passthrough_witness :
    ((∀ i, i < numWrites (ErrorLike.node "a" (ErrorLike.leaf "b")) →
        ([] : List (Option Nat)).getD i none = none)
      ∧ ((DisplayErrorChain.new (ErrorLike.node "a" (ErrorLike.leaf "b"))).fmt
          (⟨"", []⟩ : Sink Nat)).2 = none)
    ∧ (1 < numWrites (ErrorLike.node "a" (ErrorLike.leaf "b"))
      ∧ ((DisplayErrorChain.new (ErrorLike.node "a" (ErrorLike.leaf "b"))).fmt
          (⟨"", List.replicate 1 none ++ some 7 :: []⟩ : Sink Nat)).2 = some 7) :=
  ⟨⟨fun i _ => by simp,
      (C4_failure_passthrough (ErrorLike.node "a" (ErrorLike.leaf "b")) "").1 []
        (fun i _ => by simp)⟩,
    ⟨by decide,
      (C4_failure_passthrough (ErrorLike.node "a" (ErrorLike.leaf "b")) "").2 1 7 []
        (by decide)⟩⟩

/-- C5 fails as stated: when the final message itself ends with a newline
character the rendered output ends with that newline — here an error with
message `a\n` and no cause renders to `a\n`. -/
theorem C5_counterexample :
    ((DisplayErrorChain.new (ErrorLike.leaf "a\n")).to_string).data.getLast?
      = some '\n' := by decide

theorem C5_no_trailing_newline_witness :
    ((((ErrorLike.leaf "ok").causeMsgs.getLastD (ErrorLike.leaf "ok").msg)).data.getLast?
        ≠ some '\n')
      ∧ ((DisplayErrorChain.new (ErrorLike.leaf "ok")).to_string).data.getLast?
          ≠ some '\n' :=
  ⟨by decide, C5_no_trailing_newline (ErrorLike.leaf "ok") (by decide)⟩

/-- C10: when the sink fails at the `k`-th write of a render, the render
returns at once: the plan entries behind the failing one are never
consulted (they come back untouched), and the text written to the sink is
a prefix of the full successful render — nothing is written past the
failing write. -/
theorem C10_short_circuit (e : ErrorLike) (w : String) (k : Nat) (err : ε)
    (rest : List (Option ε)) (hk : k < numWrites e) :
    ((DisplayErrorChain.new e).fmt
          (⟨w, List.replicate k none ++ some err :: rest⟩ : Sink ε)).1.plan = rest
      ∧ ∃ t, w ++ (DisplayErrorChain.new e).to_string
          = ((DisplayErrorChain.new e).fmt
              (⟨w, List.replicate k none ++ some err :: rest⟩ : Sink ε)).1.written ++ t := by
  have herr : (DisplayErrorChain.new e).error = e := rfl
  rw [fmt_eq_runWrites, herr, runWrites_fail err rest k (writeChunks e) w hk]
  refine ⟨rfl, ?_⟩
  obtain ⟨t, ht⟩ := joinAll_take_isPre k (writeChunks e)
  exact ⟨t, by rw [to_string_joinAll, ht, String.append_assoc]⟩

theorem C10_short_circuit_witness :
    1 < numWrites (ErrorLike.node "a" (ErrorLike.leaf "b"))
      ∧ (((DisplayErrorChain.new (ErrorLike.node "a" (ErrorLike.leaf "b"))).fmt
            (⟨"", List.replicate 1 none ++ some 7 :: [some 8]⟩ : Sink Nat)).1.plan = [some 8]
          ∧ ∃ t, "" ++ (DisplayErrorChain.new (ErrorLike.node "a" (ErrorLike.leaf "b"))).to_string
              = ((DisplayErrorChain.new (ErrorLike.node "a" (ErrorLike.leaf "b"))).fmt
                  (⟨"", List.replicate 1 none ++ some 7 :: [some 8]⟩ : Sink Nat)).1.written ++ t) :=
  ⟨by decide,
    C10_short_circuit (ErrorLike.node "a" (ErrorLike.leaf "b")) "" 1 7 [some 8] (by decide)⟩

/-- C3 fails as stated: a cause description may itself contain a newline
followed by arrow text, so an error with exactly one cause can render to
an output with two `  -> `-prefixed lines. -/
theorem C3_counterexample :
    (ErrorLike.node "top" (ErrorLike.leaf "a\n  -> b")).causeMsgs.length = 1
      ∧ ((splitLines ((DisplayErrorChain.new
            (ErrorLike.node "top" (ErrorLike.leaf "a\n  -> b"))).to_string).data).filter
              startsWithArrow).length ≠ 1 := by
  decide

/-- C3 amended: provided the self-description and every cause description
are newline-free, the self-description is not itself the literal line
`Caused by:`, and the self-description does not begin with the cause
prefix `  -> `, the rendered output of an error with a non-empty cause
chain has exactly one line equal to `Caused by:`, and its
`  -> `-prefixed lines are exactly one line `  -> <cause>` per cause, in
chain order from outermost to root — in particular there are exactly as
many such lines as causes. -/
theorem C3_cause_lines (e : ErrorLike)
    (h1 : '\n' ∉ e.msg.data)
    (h2 : ∀ c ∈ e.causeMsgs, '\n' ∉ c.data)
    (h3 : e.causeMsgs ≠ [])
    (h4 : e.msg.data ≠ ("Caused by:" : String).data)
    (h5 : startsWithArrow e.msg.data = false) :
    ((splitLines ((DisplayErrorChain.new e).to_string).data).count
        ("Caused by:" : String).data) = 1
      ∧ (splitLines ((DisplayErrorChain.new e).to_string).data).filter startsWithArrow
          = e.causeMsgs.map (fun c => ("  -> " ++ c).data)
      ∧ ((splitLines ((DisplayErrorChain.new e).to_string).data).filter
            startsWithArrow).length = e.causeMsgs.length := by
  rw [to_string_lines e h1 h2 h3]
  have harrNe : ∀ s : String, ¬(("  -> " ++ s).data = ("Caused by:" : String).data) := by
    intro s hcontra
    have hh := congrArg List.head? hcontra
    rw [show ((("  -> " ++ s).data).head?) = some ' ' from rfl] at hh
    exact absurd hh (by decide)
  have hcount0 : (e.causeMsgs.map (fun c => ("  -> " ++ c).data)).count
      (("Caused by:" : String).data) = 0 := by
    rw [List.count_eq_zero]
    intro hmem
    obtain ⟨c, _, hc⟩ := List.mem_map.1 hmem
    exact harrNe c hc
  have hfilter : (e.msg.data :: ("Caused by:" : String).data
        :: e.causeMsgs.map (fun c => ("  -> " ++ c).data)).filter startsWithArrow
      = e.causeMsgs.map (fun c => ("  -> " ++ c).data) := by
    rw [List.filter_cons_of_neg (by simp [h5]),
      List.filter_cons_of_neg (by decide)]
    rw [List.filter_eq_self]
    intro a ha
    obtain ⟨c, _, hc⟩ := List.mem_map.1 ha
    rw [← hc]
    exact startsWithArrow_append c
  refine ⟨?_, hfilter, by rw [hfilter, List.length_map]⟩
  have hb : (e.msg.data == ("Caused by:" : String).data) = false := beq_false_of_ne h4
  rw [List.count_cons, List.count_cons, hcount0, hb]
  simp

theorem C3_cause_lines_witness :
    ('\n' ∉ ("Some I/O" : String).data
        ∧ (∀ c ∈ (ErrorLike.node "Some I/O" (ErrorLike.leaf "wow")).causeMsgs, '\n' ∉ c.data)
        ∧ (ErrorLike.node "Some I/O" (ErrorLike.leaf "wow")).causeMsgs ≠ []
        ∧ ("Some I/O" : String).data ≠ ("Caused by:" : String).data
        ∧ startsWithArrow ("Some I/O" : String).data = false)
      ∧ (((splitLines ((DisplayErrorChain.new
              (ErrorLike.node "Some I/O" (ErrorLike.leaf "wow"))).to_string).data).count
            ("Caused by:" : String).data) = 1
          ∧ (splitLines ((DisplayErrorChain.new
                (ErrorLike.node "Some I/O" (ErrorLike.leaf "wow"))).to_string).data).filter
                  startsWithArrow
              = (ErrorLike.node "Some I/O" (ErrorLike.leaf "wow")).causeMsgs.map
                  (fun c => ("  -> " ++ c).data)
          ∧ ((splitLines ((DisplayErrorChain.new
                (ErrorLike.node "Some I/O" (ErrorLike.leaf "wow"))).to_string).data).filter
                  startsWithArrow).length
              = (ErrorLike.node "Some I/O" (ErrorLike.leaf "wow")).causeMsgs.length) :=
  ⟨⟨by decide, by decide, by decide, by decide, by decide⟩,
    C3_cause_lines (ErrorLike.node "Some I/O" (ErrorLike.leaf "wow"))
      (by decide) (by decide) (by decide) (by decide) (by decide)⟩
